import Mathlib

/-!
Verification development for the bangumi-tool exporter
(`src/main.rs`, `src/cache.rs`, `src/client.rs`, `src/models.rs`).

The Rust source is shallowly embedded: machine integers (`u8`, `u64`)
become `Nat` (no arithmetic here can overflow a `u64` for the value
ranges the program handles), fallible remote calls are modelled by a
total oracle on the success path or by `Except` where the error path is
the subject of a claim, and the on-disk JSON cache becomes an
association list from structured keys to a tagged value type.
-/

namespace Bgm

/-! ## Data model (`src/models.rs`) -/

/-- `models.rs` `CollectionSubject`: the subject summary embedded in a
collection item. -/
structure CollectionSubject where
  id : Nat
  name : String
  name_cn : String
  subject_type : Nat
  eps : Nat
  volumes : Nat
deriving DecidableEq, Repr

/-- `models.rs` `Collection`: one collection item.  `updated_at` is a
`chrono` UTC timestamp in Rust; it is carried here as an opaque `Nat`
instant (no claim depends on its rendered form). -/
structure Collection where
  subject_id : Nat
  collection_type : Nat
  rate : Nat
  ep_status : Nat
  updated_at : Nat
  comment : Option String
  tags : List String
  subject : CollectionSubject
deriving DecidableEq, Repr

/-- `models.rs` `PagedCollection`. -/
structure PagedCollection where
  total : Nat
  limit : Nat
  offset : Nat
  data : List Collection
deriving DecidableEq, Repr

/-- `models.rs` `SubjectDetail`. -/
structure SubjectDetail where
  id : Nat
  name : String
  name_cn : String
  subject_type : Nat
  eps : Nat
  total_episodes : Nat
deriving DecidableEq, Repr

/-- `models.rs` `Episode`.  The Rust `sort` field is an `f64`; its only
use is the cast `e.sort as u64` in `build_detail_record`, so the field
is carried here already as the `Nat` that cast produces. -/
structure Episode where
  id : Nat
  episode_type : Nat
  sort : Nat
  ep : Option Nat
deriving DecidableEq, Repr

/-- `models.rs` `PagedEpisodes`. -/
structure PagedEpisodes where
  total : Nat
  limit : Nat
  offset : Nat
  data : List Episode
deriving DecidableEq, Repr

/-- `models.rs` `ProgressStatus`. -/
structure ProgressStatus where
  id : Nat
deriving DecidableEq, Repr

/-- `models.rs` `EpisodeProgress`. -/
structure EpisodeProgress where
  id : Nat
  status : ProgressStatus
deriving DecidableEq, Repr

/-- `models.rs` `UserProgress`. -/
structure UserProgress where
  subject_id : Nat
  eps : List EpisodeProgress
deriving DecidableEq, Repr

/-- `models.rs` `ExportRecord`: full record with episode/progress detail. -/
structure ExportRecord where
  name : String
  name_cn : String
  subject_type : String
  url : String
  status : String
  updated_at : String
  completeness : String
  completeness_pct : String
  watched_eps : String
  rating : String
  tags : String
  comment : String
deriving DecidableEq, Repr

/-- `models.rs` `SimpleRecord`: record built from collection data only. -/
structure SimpleRecord where
  name : String
  name_cn : String
  subject_type : String
  url : String
  status : String
  collection_type : Nat
  updated_at : String
  rating : String
  tags : String
  comment : String
deriving DecidableEq, Repr

/-- `models.rs` `subject_type_name`. -/
def subject_type_name (t : Nat) : String :=
  match t with
  | 1 => "书籍"
  | 2 => "动画"
  | 3 => "音乐"
  | 4 => "游戏"
  | 6 => "三次元"
  | _ => "未知"

/-- `models.rs` `collection_status_name`. -/
def collection_status_name (collection_type subject_type : Nat) : String :=
  match collection_type, subject_type with
  | 1, 1 => "想读"
  | 2, 1 => "读过"
  | 3, 1 => "在读"
  | 1, 3 => "想听"
  | 2, 3 => "听过"
  | 3, 3 => "在听"
  | 1, 4 => "想玩"
  | 2, 4 => "玩过"
  | 3, 4 => "在玩"
  | 1, _ => "想看"
  | 2, _ => "看过"
  | 3, _ => "在看"
  | 4, _ => "搁置"
  | 5, _ => "抛弃"
  | _, _ => "未知"

/-- Rust `Vec::dedup` on an already materialised list: removes
consecutive equal elements (after sorting this is a full dedup). -/
def dedup_adjacent : List Nat → List Nat
  | [] => []
  | [a] => [a]
  | a :: b :: rest =>
    if a = b then dedup_adjacent (b :: rest) else a :: dedup_adjacent (b :: rest)

/-- Rendering of one run in `run_length_encode`: `"a"` for a singleton,
`"a-b"` for a range (the two `push` branches in `models.rs`). -/
def render_run (s e : Nat) : String :=
  if s = e then toString s else s!"{s}-{e}"

/-- `models.rs` `run_length_encode`: sort ascending (Rust
`sort_unstable`, modelled by `insertionSort`, extensionally equal on a
total order), remove consecutive duplicates, then fold maximal
consecutive runs into parts joined by `","`. -/
def run_length_encode (eps : List Nat) : String :=
  if eps.isEmpty then "" else
  let sorted := dedup_adjacent (eps.insertionSort (· ≤ ·))
  match sorted with
  | [] => ""
  | s0 :: rest =>
    let step := fun (acc : List String × Nat × Nat) ep =>
      if ep = acc.2.2 + 1 then (acc.1, acc.2.1, ep)
      else (acc.1 ++ [render_run acc.2.1 acc.2.2], ep, ep)
    let final := rest.foldl step ([], s0, s0)
    String.intercalate "," (final.1 ++ [render_run final.2.1 final.2.2])

/-- Scaling loop for binary64 rounding: multiplies `a` or `b` by 2
(adjusting the exponent) until `a / b` lies in `[2^52, 2^53)`; the pair
keeps representing the same value `(a / b) * 2^e`.  The fuel passed by
`roundRatF64` is far larger than the `|log2 (a/b)| + 53` steps ever
needed. -/
def scale53 : Nat → Nat → Nat → Int → Nat × Nat × Int
  | 0, a, b, e => (a, b, e)
  | fuel + 1, a, b, e =>
    if a < b * 2 ^ 52 then scale53 fuel (2 * a) b (e - 1)
    else if b * 2 ^ 53 ≤ a then scale53 fuel a (2 * b) (e + 1)
    else (a, b, e)

/-- Round the positive rational `a / b` to the nearest IEEE binary64
value (round to nearest, ties to even), returned as mantissa and base-2
exponent: scale into `[2^52, 2^53)`, then round the scaled quotient to
an integer mantissa of 53 bits.  Covers the normal range, which the
program's values (`u64` counts cast to `f64`, their quotients and a
product with 100) never leave. -/
def roundRatF64 (a b : Nat) : Nat × Int :=
  let s := scale53 (a + b + 120) a b 0
  let m0 := s.1 / s.2.1
  let r := s.1 % s.2.1
  let m := if 2 * r < s.2.1 then m0
    else if s.2.1 < 2 * r then m0 + 1
    else if m0 % 2 = 0 then m0 else m0 + 1
  (m, s.2.2)

/-- A nonnegative IEEE binary64 value, as mantissa times `2 ^` exponent
(the program's percentage computation only ever meets nonnegative
values). -/
def F64 := Nat × Int

/-- The cast `n as f64`: exact for `n < 2^53`, otherwise rounded to
nearest, ties to even. -/
def natToF64 (n : Nat) : F64 :=
  if n = 0 then ((0 : Nat), (0 : Int)) else roundRatF64 n 1

/-- Binary64 division: round the exact quotient.  A zero divisor is
outside the modelled fragment (both call sites guard the divisor). -/
def F64.fdiv (x y : F64) : F64 :=
  if x.1 = 0 ∨ y.1 = 0 then ((0 : Nat), (0 : Int))
  else
    let r := roundRatF64 x.1 y.1
    (r.1, r.2 + (x.2 - y.2))

/-- Binary64 multiplication: round the exact product. -/
def F64.fmul (x y : F64) : F64 :=
  if x.1 = 0 ∨ y.1 = 0 then ((0 : Nat), (0 : Int))
  else
    let r := roundRatF64 (x.1 * y.1) 1
    (r.1, r.2 + (x.2 + y.2))

/-- Rust `{:.0}` formatting of a nonnegative double: the exact value
`m * 2^e` correctly rounded to an integer, ties to even, rendered in
decimal. -/
def F64.format0 (x : F64) : String :=
  if 0 ≤ x.2 then toString (x.1 * 2 ^ x.2.toNat)
  else
    let b := 2 ^ (-x.2).toNat
    let m0 := x.1 / b
    let r := x.1 % b
    toString (if 2 * r < b then m0 else if b < 2 * r then m0 + 1
      else if m0 % 2 = 0 then m0 else m0 + 1)

/-- Models Rust `format!("{:.0}%", num as f64 / den as f64 * 100.0)`
(`main.rs`, `build_detail_record`): both casts, the division and the
multiplication each round to nearest binary64 (ties to even), and the
`{:.0}` formatting rounds the resulting double's exact value to an
integer, ties to even.  Because the double quotient is in general not
the exact rational `num / den`, the printed percentage can land on
either side of a half-integer tie (`23/40` prints `57`, `109/200`
prints `55`). -/
def format_pct (num den : Nat) : String :=
  (F64.fmul (F64.fdiv (natToF64 num) (natToF64 den)) (natToF64 100)).format0 ++ "%"

/-- Models `col.updated_at.with_timezone(&Local).format("%Y-%m-%d %H:%M:%S")`:
an opaque rendering of the carried instant (no claim depends on the
rendered form, only on which input field it is derived from). -/
def format_local_timestamp (t : Nat) : String :=
  toString t

/-- `main.rs` `build_simple_record`. -/
def build_simple_record (col : Collection) : SimpleRecord :=
  { name := col.subject.name
    name_cn := col.subject.name_cn
    subject_type := subject_type_name col.subject.subject_type
    url := s!"https://bgm.tv/subject/{col.subject_id}"
    status := collection_status_name col.collection_type col.subject.subject_type
    collection_type := col.collection_type
    updated_at := format_local_timestamp col.updated_at
    rating := if col.rate = 0 then "" else toString col.rate
    tags := String.intercalate ", " col.tags
    comment := col.comment.getD "" }

/-- `main.rs` `build_detail_record`. -/
def build_detail_record (col : Collection) (detail : SubjectDetail)
    (all_episodes : List Episode) (progress : Option UserProgress) : ExportRecord :=
  let sid := col.subject_id
  let total_eps := max detail.total_episodes detail.eps
  let main_eps := all_episodes.filter (fun e => e.episode_type == 0)
  let main_ep_count := main_eps.length
  let watched_ep_ids : List Nat :=
    (progress.map (fun p => (p.eps.filter (fun ep => ep.status.id == 2)).map (fun ep => ep.id))).getD []
  let watched_sort_nums : List Nat :=
    (main_eps.filter (fun e => watched_ep_ids.contains e.id)).map (fun e => e.sort)
  let watched_count := watched_sort_nums.length
  let completeness := s!"{watched_count}/{main_ep_count}"
  let completeness_pct :=
    if main_ep_count > 0 then format_pct watched_count main_ep_count
    else if total_eps > 0 then format_pct col.ep_status total_eps
    else "N/A"
  let watched_eps_str := run_length_encode watched_sort_nums
  { name := col.subject.name
    name_cn := col.subject.name_cn
    subject_type := subject_type_name col.subject.subject_type
    url := s!"https://bgm.tv/subject/{sid}"
    status := collection_status_name col.collection_type col.subject.subject_type
    updated_at := format_local_timestamp col.updated_at
    completeness := completeness
    completeness_pct := completeness_pct
    watched_eps := watched_eps_str
    rating := if col.rate = 0 then "" else toString col.rate
    tags := String.intercalate ", " col.tags
    comment := col.comment.getD "" }

/-! ## Cache (`src/cache.rs`)

The Rust cache maps a `/`-delimited string key (e.g.
`"{uid}/subjects/{sid}"`) to a JSON file.  The key families the program
builds are pairwise distinct strings, so keys are embedded as a
structured type.  The file contents are embedded as a tagged value:
`empty` is the zero-byte marker written by `set_empty`, `corrupt`
stands for on-disk bytes that fail to deserialize at every expected
type, and the other constructors are successfully serialized values of
the five types the program stores. -/

/-- Cache keys: `"{uid}/collections/{offset}"`, `"{uid}/subjects/{sid}"`,
`"{uid}/episodes/{sid}"`, `"{uid}/progress/{sid}"`, `"{uid}/done_records"`. -/
inductive Key where
  | collections (uid offset : Nat)
  | subject (uid sid : Nat)
  | episodes (uid sid : Nat)
  | progress (uid sid : Nat)
  | done_records (uid : Nat)
deriving DecidableEq, Repr

/-- On-disk file contents at a cache key. -/
inductive CVal where
  | page (p : PagedCollection)
  | subject (d : SubjectDetail)
  | episodes (es : List Episode)
  | progress (p : UserProgress)
  | records (rs : List ExportRecord)
  | empty
  | corrupt
deriving DecidableEq, Repr

/-- The on-disk store: newest write first, so `lookup` finding the first
binding gives overwrite semantics. -/
def Cache := List (Key × CVal)

instance : DecidableEq Cache := by
  unfold Cache
  infer_instance

/-- First binding for a key, i.e. the current file contents (`none` =
no file on disk). -/
def Cache.lookup : Cache → Key → Option CVal
  | [], _ => none
  | (k, v) :: rest, key => if k = key then some v else Cache.lookup rest key

/-- `cache.rs` `Cache::has`: the file exists (no content interpretation). -/
def Cache.has (c : Cache) (key : Key) : Bool :=
  (c.lookup key).isSome

/-- `cache.rs` `Cache::get`: `none` on a missing file, on the zero-byte
empty marker, and on deserialization failure (`dec` returning `none`);
otherwise the decoded value.  `dec` plays the role of
`serde_json::from_str` at the caller's expected type. -/
def Cache.get (c : Cache) (key : Key) (dec : CVal → Option α) : Option α :=
  match c.lookup key with
  | none => none
  | some CVal.empty => none
  | some v => dec v

/-- `cache.rs` `Cache::set`: serialize and write, overwriting. -/
def Cache.set (c : Cache) (key : Key) (v : CVal) : Cache :=
  (key, v) :: c

/-- `cache.rs` `Cache::set_empty`: write the zero-byte marker. -/
def Cache.set_empty (c : Cache) (key : Key) : Cache :=
  (key, CVal.empty) :: c

/-- `cache.rs` `Cache::clear`: remove the entire cache directory. -/
def Cache.clear (_ : Cache) : Cache :=
  []

/-- Deserialization of a cached collection page (`serde` at `PagedCollection`). -/
def decPage : CVal → Option PagedCollection
  | CVal.page p => some p
  | _ => none

/-- Deserialization of a cached subject detail. -/
def decSubject : CVal → Option SubjectDetail
  | CVal.subject d => some d
  | _ => none

/-- Deserialization of a cached episode list. -/
def decEpisodes : CVal → Option (List Episode)
  | CVal.episodes es => some es
  | _ => none

/-- Deserialization of a cached user progress. -/
def decProgress : CVal → Option UserProgress
  | CVal.progress p => some p
  | _ => none

/-- Deserialization of the cached checkpoint record list. -/
def decRecords : CVal → Option (List ExportRecord)
  | CVal.records rs => some rs
  | _ => none

/-! ## Remote oracle and the cached fetchers (`src/main.rs`)

The `BangumiClient` success path is modelled by a total oracle: each
claim about the fetch-and-aggregate pipeline presumes the remote calls
succeed (a failed call aborts the whole run via `?`).  The fetchers
additionally return the list of offsets (or subject ids) they actually
requested remotely, so that claims about request counts and about
"no remote call happens" are statable. -/

/-- Deterministic remote responses for one run.  `get_collections` and
`get_episodes` take the `limit` and `offset` the client would send. -/
structure Remote where
  get_collections : Nat → Nat → PagedCollection
  get_subject : Nat → SubjectDetail
  get_episodes : Nat → Nat → Nat → PagedEpisodes
  get_progress : Nat → Nat → Option UserProgress

/-- `main.rs` `fetch_subject`: cache-or-fetch one subject detail. -/
def fetch_subject (remote : Remote) (cache : Cache) (uid sid : Nat) :
    Cache × SubjectDetail :=
  match cache.get (Key.subject uid sid) decSubject with
  | some detail => (cache, detail)
  | none =>
    let detail := remote.get_subject sid
    (cache.set (Key.subject uid sid) (CVal.subject detail), detail)

/-- The internal pagination loop of `fetch_all_episodes` (`main.rs`):
do-while with `limit = 100`; each iteration fetches one page, extends
the accumulator, advances the offset, and stops once `offset >= total`
where `total` is re-read from the page just fetched.  `fuel` bounds the
number of iterations (the Rust loop has no such bound; every claim
below supplies enough fuel for the oracle at hand).  Also returns the
list of offsets requested. -/
def episodes_loop (remote : Remote) (sid : Nat) :
    Nat → Nat → List Episode → List Nat → List Episode × List Nat
  | 0, _, acc, trace => (acc, trace)
  | fuel + 1, offset, acc, trace =>
    let page := remote.get_episodes sid 100 offset
    let total := page.total
    let acc' := acc ++ page.data
    let trace' := trace ++ [offset]
    let offset' := offset + 100
    if offset' ≥ total then (acc', trace')
    else episodes_loop remote sid fuel offset' acc' trace'

/-- `main.rs` `fetch_all_episodes`: if the whole-result cache key exists
(whatever the file holds), return the decoded list or `[]`
(`unwrap_or_default`) without any remote call or cache write; otherwise
page through the remote episodes from offset 0 and write the assembled
list once — as the empty marker if it is empty. -/
def fetch_all_episodes (remote : Remote) (fuel : Nat) (cache : Cache)
    (uid sid : Nat) : Cache × List Episode × List Nat :=
  let key := Key.episodes uid sid
  if cache.has key then
    (cache, (cache.get key decEpisodes).getD [], [])
  else
    let result := episodes_loop remote sid fuel 0 [] []
    let all := result.1
    if all.isEmpty then (cache.set_empty key, all, result.2)
    else (cache.set key (CVal.episodes all), all, result.2)

/-- `main.rs` `fetch_progress`: if the cache key exists, return the
decoded progress (so `none` for the empty marker or a corrupt file)
without fetching; otherwise fetch, write the value or the empty marker,
and return it.  The trace holds the subject id when a remote call
happened. -/
def fetch_progress (remote : Remote) (cache : Cache) (uid sid : Nat) :
    Cache × Option UserProgress × List Nat :=
  let key := Key.progress uid sid
  if cache.has key then
    (cache, cache.get key decProgress, [])
  else
    match remote.get_progress uid sid with
    | some p => (cache.set key (CVal.progress p), some p, [sid])
    | none => (cache.set_empty key, none, [sid])

/-- One cache-or-fetch collection page request (`main.rs`
`fetch_collections`, both the first page and the loop body); the last
component counts remote requests issued (0 or 1). -/
def collections_page (remote : Remote) (cache : Cache) (uid offset : Nat) :
    Cache × PagedCollection × Nat :=
  match cache.get (Key.collections uid offset) decPage with
  | some page => (cache, page, 0)
  | none =>
    let page := remote.get_collections 30 offset
    (cache.set (Key.collections uid offset) (CVal.page page), page, 1)

/-- The `while offset < total` loop of `fetch_collections`: `total` is
fixed by the first page, the offset advances by the page size 30
regardless of how many items a page returned.  The explicit `fuel`
argument only bounds the recursion so the loop is structural; since the
offset grows by 30 every iteration, `total` iterations always suffice
and the fuel the caller passes is never exhausted. -/
def collections_loop (remote : Remote) (uid total : Nat) :
    Nat → Cache → Nat → List Collection → Nat → Cache × List Collection × Nat
  | 0, cache, _, acc, reqs => (cache, acc, reqs)
  | fuel + 1, cache, offset, acc, reqs =>
    if offset < total then
      let step := collections_page remote cache uid offset
      collections_loop remote uid total fuel step.1 (offset + 30)
        (acc ++ step.2.1.data) (reqs + step.2.2)
    else (cache, acc, reqs)

/-- `main.rs` `fetch_collections`: first page (also yielding `total`),
then the offset loop; returns the final cache, the concatenated items,
and the number of remote page requests issued. -/
def fetch_collections (remote : Remote) (cache : Cache) (uid : Nat) :
    Cache × List Collection × Nat :=
  let first := collections_page remote cache uid 0
  let total := first.2.1.total
  collections_loop remote uid total total first.1 30 first.2.1.data first.2.2

/-! ## The resumable aggregator (`main.rs` `fetch_detail_records`) -/

/-- The body of one iteration of the `fetch_detail_records` loop for a
non-skipped item: the three dependent cache-or-fetch calls in order,
then `build_detail_record`. -/
def process_item (remote : Remote) (fuel : Nat) (cache : Cache) (uid : Nat)
    (col : Collection) : Cache × ExportRecord :=
  let sid := col.subject_id
  let s1 := fetch_subject remote cache uid sid
  let s2 := fetch_all_episodes remote fuel s1.1 uid sid
  let s3 := fetch_progress remote s2.1 uid sid
  (s3.1, build_detail_record col s1.2 s2.2.1 s3.2.1)

/-- The `for (i, col) in collections.iter().enumerate()` loop of
`fetch_detail_records`: items with `i < start` are skipped; every
processed item is appended to the record list and the whole updated
list is persisted at the `done_records` key. -/
def detail_loop (remote : Remote) (fuel uid : Nat) :
    Cache → List ExportRecord → Nat → Nat → List Collection →
    Cache × List ExportRecord
  | cache, records, _, _, [] => (cache, records)
  | cache, records, i, start, col :: rest =>
    if i < start then detail_loop remote fuel uid cache records (i + 1) start rest
    else
      let step := process_item remote fuel cache uid col
      let records' := records ++ [step.2]
      let cache' := step.1.set (Key.done_records uid) (CVal.records records')
      detail_loop remote fuel uid cache' records' (i + 1) start rest

/-- `main.rs` `fetch_detail_records`: load the checkpoint (`[]` when the
key is absent, empty or undeserializable), set the resume index to its
length, and run the loop over the whole collection list. -/
def fetch_detail_records (remote : Remote) (fuel : Nat) (cache : Cache)
    (uid : Nat) (collections : List Collection) : Cache × List ExportRecord :=
  let records := (cache.get (Key.done_records uid) decRecords).getD []
  let start := records.length
  detail_loop remote fuel uid cache records 0 start collections

/-- The loop of `fetch_detail_records` with no items skipped: this is
what the loop does from the resume index on, and iterating it from an
empty cache is the uncached run. -/
def run_items (remote : Remote) (fuel uid : Nat) :
    Cache → List ExportRecord → List Collection → Cache × List ExportRecord
  | cache, records, [] => (cache, records)
  | cache, records, col :: rest =>
    let step := process_item remote fuel cache uid col
    let records' := records ++ [step.2]
    let cache' := step.1.set (Key.done_records uid) (CVal.records records')
    run_items remote fuel uid cache' records' rest

/-- The on-disk state left by a run from an empty cache that is killed
right after checkpointing its `k`-th item: the cache after the first
`k` iterations of the aggregation loop. -/
def crash_state (remote : Remote) (fuel uid : Nat) (collections : List Collection)
    (k : Nat) : Cache :=
  (run_items remote fuel uid [] [] (collections.take k)).1

/-! ## Client error handling (`src/client.rs`, `src/error.rs`) -/

/-- `error.rs` `AppError` (the constructors the client paths produce;
`Http` carries the transport error's message, `Api` the non-2xx status
and response body). -/
inductive AppError where
  | http (message : String)
  | json
  | io
  | noToken
  | api (status : Nat) (message : String)
deriving DecidableEq, Repr

/-- An HTTP response as the client observes it: status code and body text. -/
structure Response where
  status : Nat
  body : String
deriving DecidableEq, Repr

/-- The transport outcome of `self.http.get(..).send().await`: either a
response or a `reqwest` transport error with its message. -/
def SendResult := Except String Response

/-- `client.rs` `BangumiClient::request`: a transport error becomes
`AppError::Http`; a non-2xx status becomes `AppError::Api` carrying the
status code and the response body as the message; a 2xx response is
returned. -/
def Client.request (send : SendResult) : Except AppError Response :=
  match send with
  | Except.error e => Except.error (AppError.http e)
  | Except.ok resp =>
    if 200 ≤ resp.status ∧ resp.status < 300 then Except.ok resp
    else Except.error (AppError.api resp.status resp.body)

/-- `client.rs` `BangumiClient::get_progress`: a 404 API error is
reinterpreted as `Ok(None)`; any other error propagates; a body that is
the literal `"null"` or empty is `Ok(None)`; otherwise the body is
deserialized (`parse` plays `serde_json::from_str`, failure becoming
`AppError::Json`). -/
def Client.get_progress (parse : String → Option UserProgress)
    (send : SendResult) : Except AppError (Option UserProgress) :=
  match Client.request send with
  | Except.error (AppError.api 404 _) => Except.ok none
  | Except.error e => Except.error e
  | Except.ok resp =>
    if resp.body = "null" ∨ resp.body = "" then Except.ok none
    else
      match parse resp.body with
      | some progress => Except.ok (some progress)
      | none => Except.error AppError.json

/-! ## Spec-side definition for the watched-set claim -/

/-- Modelled from the claim's words (C5), for comparison with
`build_detail_record`: the watched set `W` is the deduplicated set of
ordinal sort values of main episodes whose id appears in the progress
list with status code 2, and the fraction string is `"{|W|}/{M}"`. -/
def spec_watched_fraction (all_episodes : List Episode)
    (progress : Option UserProgress) : String :=
  let main_eps := all_episodes.filter (fun e => e.episode_type == 0)
  let watched_ep_ids : List Nat :=
    (progress.map (fun p => (p.eps.filter (fun ep => ep.status.id == 2)).map (fun ep => ep.id))).getD []
  let watched_set : List Nat :=
    ((main_eps.filter (fun e => watched_ep_ids.contains e.id)).map (fun e => e.sort)).dedup
  s!"{watched_set.length}/{main_eps.length}"

/-- Modelled from the claim's words (C4), for comparison with the
code's percentage: `round(num / den * 100)` on the exact rational,
i.e. `⌊num/den*100 + 1/2⌋`, rendered with a percent sign.  (At the
input of the counterexample the value is exactly 57.5, where rounding
half up and rounding ties to even agree: both give 58.) -/
def spec_round_pct (num den : Nat) : String :=
  toString ((num * 100 * 2 + den) / (den * 2)) ++ "%"

/-! ## Sample values used by concrete instances -/

def sampleSubject : CollectionSubject := ⟨10, "Name", "", 2, 0, 0⟩

def sampleCol : Collection := ⟨10, 3, 0, 0, 0, none, [], sampleSubject⟩

/-- Like `sampleCol` but with `ep_status = 2`. -/
def sampleColEp2 : Collection := ⟨10, 3, 0, 2, 0, none, [], sampleSubject⟩

def sampleDetail : SubjectDetail := ⟨10, "Name", "", 2, 0, 0⟩

def tenMainEpisodes : List Episode :=
  (List.range 10).map (fun i => ⟨i + 1, 0, i + 1, none⟩)

def threeWatched : Option UserProgress :=
  some ⟨10, [⟨1, ⟨2⟩⟩, ⟨2, ⟨2⟩⟩, ⟨3, ⟨2⟩⟩]⟩

def fortyMainEpisodes : List Episode :=
  (List.range 40).map (fun i => ⟨i + 1, 0, i + 1, none⟩)

def watched23 : Option UserProgress :=
  some ⟨10, (List.range 23).map (fun i => ⟨i + 1, ⟨2⟩⟩)⟩

/-! ## Projections of the records without their rating field -/

def simple_sans_rating (r : SimpleRecord) :
    String × String × String × String × String × Nat × String × String × String :=
  (r.name, r.name_cn, r.subject_type, r.url, r.status, r.collection_type,
    r.updated_at, r.tags, r.comment)

def export_sans_rating (r : ExportRecord) :
    String × String × String × String × String × String × String × String × String ×
      String × String :=
  (r.name, r.name_cn, r.subject_type, r.url, r.status, r.updated_at,
    r.completeness, r.completeness_pct, r.watched_eps, r.tags, r.comment)

/-- A remote oracle with trivial deterministic answers, used to
instantiate hypotheses at concrete inputs. -/
def trivialRemote : Remote :=
  ⟨fun _ _ => ⟨0, 30, 0, []⟩, fun _ => sampleDetail,
    fun _ _ _ => ⟨0, 100, 0, []⟩, fun _ _ => none⟩

/-- A remote oracle whose episode list for every subject is the single
episode `⟨1, 0, 1, none⟩` and whose progress is `⟨7, []⟩`. -/
def c2Remote : Remote :=
  ⟨fun _ _ => ⟨0, 30, 0, []⟩, fun _ => sampleDetail,
    fun _ _ _ => ⟨1, 100, 0, [⟨1, 0, 1, none⟩]⟩, fun _ _ => some ⟨7, []⟩⟩

/-- A cache whose episodes and progress entries for subject 7 exist on
disk but fail to deserialize. -/
def c2Cache : Cache :=
  [(Key.episodes 1 7, CVal.corrupt), (Key.progress 1 7, CVal.corrupt)]

/-! ## Helper lemmas: run-length encoding -/

lemma mem_dedup_adjacent (a : Nat) : ∀ l : List Nat, a ∈ dedup_adjacent l ↔ a ∈ l := by
  intro l
  induction l with
  | nil => simp [dedup_adjacent]
  | cons x tail ih =>
    cases tail with
    | nil => simp [dedup_adjacent]
    | cons y rest =>
      by_cases h : x = y
      · subst h
        simp [dedup_adjacent, ih]
      · simp only [dedup_adjacent, if_neg h, List.mem_cons]
        rw [ih]
        simp

lemma sorted_dedup_adjacent : ∀ {l : List Nat}, l.Sorted (· ≤ ·) →
    (dedup_adjacent l).Sorted (· < ·) := by
  intro l
  induction l with
  | nil => intro _; simp [dedup_adjacent]
  | cons x tail ih =>
    cases tail with
    | nil => intro _; simp [dedup_adjacent]
    | cons y rest =>
      intro hs
      rw [List.sorted_cons] at hs
      obtain ⟨hx, hs'⟩ := hs
      by_cases h : x = y
      · simp only [dedup_adjacent, if_pos h]
        exact ih hs'
      · simp only [dedup_adjacent, if_neg h]
        rw [List.sorted_cons]
        refine ⟨?_, ih hs'⟩
        intro b hb
        have hb' : b ∈ y :: rest := (mem_dedup_adjacent b (y :: rest)).mp hb
        have hxy : x < y := lt_of_le_of_ne (hx y (by simp)) h
        rcases List.mem_cons.mp hb' with rfl | hbr
        · exact hxy
        · exact lt_of_lt_of_le hxy ((List.sorted_cons.mp hs').1 b hbr)

lemma sorted_lt_eq_of_mem_iff : ∀ s t : List Nat, s.Sorted (· < ·) → t.Sorted (· < ·) →
    (∀ a, a ∈ s ↔ a ∈ t) → s = t := by
  intro s
  induction s with
  | nil =>
    intro t _ _ hmem
    cases t with
    | nil => rfl
    | cons b t' => exact absurd ((hmem b).mpr (by simp)) (by simp)
  | cons a s' ih =>
    intro t hs ht hmem
    cases t with
    | nil => exact absurd ((hmem a).mp (by simp)) (by simp)
    | cons b t' =>
      rw [List.sorted_cons] at hs ht
      have hab : a = b := by
        rcases List.mem_cons.mp ((hmem a).mp (by simp)) with h | h
        · exact h
        · have hba : b < a := ht.1 a h
          rcases List.mem_cons.mp ((hmem b).mpr (by simp)) with h' | h'
          · omega
          · have : a < b := hs.1 b h'
            omega
      subst hab
      congr 1
      apply ih t' hs.2 ht.2
      intro c
      constructor
      · intro hc
        rcases List.mem_cons.mp ((hmem c).mp (List.mem_cons_of_mem _ hc)) with rfl | h'
        · exact absurd (hs.1 c hc) (lt_irrefl c)
        · exact h'
      · intro hc
        rcases List.mem_cons.mp ((hmem c).mpr (List.mem_cons_of_mem _ hc)) with rfl | h'
        · exact absurd (ht.1 c hc) (lt_irrefl c)
        · exact h'

lemma sortedDedup_eq_of_mem_iff {l l' : List Nat} (h : ∀ a, a ∈ l ↔ a ∈ l') :
    dedup_adjacent (l.insertionSort (· ≤ ·)) = dedup_adjacent (l'.insertionSort (· ≤ ·)) := by
  apply sorted_lt_eq_of_mem_iff
  · exact sorted_dedup_adjacent (List.sorted_insertionSort _ l)
  · exact sorted_dedup_adjacent (List.sorted_insertionSort _ l')
  · intro a
    rw [mem_dedup_adjacent, mem_dedup_adjacent, List.mem_insertionSort,
      List.mem_insertionSort]
    exact h a

lemma run_length_encode_eq_of_mem_iff {l l' : List Nat} (hne : l.isEmpty = l'.isEmpty)
    (h : ∀ a, a ∈ l ↔ a ∈ l') : run_length_encode l = run_length_encode l' := by
  unfold run_length_encode
  rw [hne, sortedDedup_eq_of_mem_iff h]

/-! ## Claim theorems -/

/-- C3: run_length_encode sorts ascending and deduplicates, rendering
maximal consecutive runs as `"a-b"`, singletons as `"a"`, joined by
`","`; the empty list yields `""`; the listed examples hold; and the
result is invariant under permutation of the input and under inserting
a duplicate element. -/
theorem run_length_encode_spec :
    run_length_encode [] = ""
    ∧ run_length_encode [5] = "5"
    ∧ run_length_encode [1, 2, 3] = "1-3"
    ∧ run_length_encode [1, 3, 4, 5, 9] = "1,3-5,9"
    ∧ run_length_encode [1, 2, 3, 5, 7, 8, 9, 12] = "1-3,5,7-9,12"
    ∧ (∀ l l' : List Nat, l.Perm l' → run_length_encode l = run_length_encode l')
    ∧ (∀ (x : Nat) (l : List Nat), x ∈ l →
        run_length_encode (x :: l) = run_length_encode l) := by
  refine ⟨by decide, by decide, by decide, by decide, by decide, ?_, ?_⟩
  · intro l l' hp
    apply run_length_encode_eq_of_mem_iff
    · have := hp.length_eq
      cases l <;> cases l' <;> simp_all
    · exact fun a => hp.mem_iff
  · intro x l hx
    apply run_length_encode_eq_of_mem_iff
    · cases l with
      | nil => cases hx
      | cons b t => rfl
    · intro a
      simp only [List.mem_cons]
      constructor
      · rintro (rfl | h)
        · exact hx
        · exact h
      · exact Or.inr

/-- C3 witness: the permutation-invariance component applied at a
concrete pair of permuted lists. -/
theorem run_length_encode_spec_witness :
    ([2, 1] : List Nat).Perm [1, 2]
    ∧ run_length_encode [2, 1] = run_length_encode [1, 2] :=
  ⟨by decide, run_length_encode_spec.2.2.2.2.2.1 [2, 1] [1, 2] (by decide)⟩

/-- C7: cache three-state law: after `set_empty k` the key exists and a
read at any type is `none`; after `set k v` a read at the matching type
is `some v` (for each of the five stored types); after `clear` no key
exists. -/
theorem cache_three_state_law (c : Cache) (k : Key) :
    Cache.has (Cache.set_empty c k) k = true
    ∧ (∀ (α : Type) (dec : CVal → Option α), Cache.get (Cache.set_empty c k) k dec = none)
    ∧ (∀ p, Cache.get (Cache.set c k (CVal.page p)) k decPage = some p)
    ∧ (∀ d, Cache.get (Cache.set c k (CVal.subject d)) k decSubject = some d)
    ∧ (∀ es, Cache.get (Cache.set c k (CVal.episodes es)) k decEpisodes = some es)
    ∧ (∀ p, Cache.get (Cache.set c k (CVal.progress p)) k decProgress = some p)
    ∧ (∀ rs, Cache.get (Cache.set c k (CVal.records rs)) k decRecords = some rs)
    ∧ Cache.has (Cache.clear c) k = false := by
  refine ⟨?_, ?_, ?_, ?_, ?_, ?_, ?_, ?_⟩ <;>
    simp [Cache.has, Cache.get, Cache.set, Cache.set_empty, Cache.clear, Cache.lookup,
      decPage, decSubject, decEpisodes, decProgress, decRecords]

/-- C8: the progress lookup maps a 404 response, a `"null"` body and an
empty body to `Ok(None)`, while any other non-2xx response propagates
as a typed `Api` failure carrying the status code and body, and a
transport error propagates as a typed `Http` failure. -/
theorem get_progress_absence_policy (parse : String → Option UserProgress) :
    (∀ body : String, Client.get_progress parse (Except.ok ⟨404, body⟩) = Except.ok none)
    ∧ (∀ resp : Response, 200 ≤ resp.status → resp.status < 300 →
        (resp.body = "null" ∨ resp.body = "") →
        Client.get_progress parse (Except.ok resp) = Except.ok none)
    ∧ (∀ resp : Response, ¬(200 ≤ resp.status ∧ resp.status < 300) → resp.status ≠ 404 →
        Client.get_progress parse (Except.ok resp) =
          Except.error (AppError.api resp.status resp.body))
    ∧ (∀ msg : String, Client.get_progress parse (Except.error msg) =
        Except.error (AppError.http msg)) := by
  refine ⟨?_, ?_, ?_, ?_⟩
  · intro body
    simp [Client.get_progress, Client.request]
  · intro resp h1 h2 hb
    simp only [Client.get_progress, Client.request, if_pos (And.intro h1 h2)]
    simp [hb]
  · intro resp h1 h2
    simp only [Client.get_progress, Client.request, if_neg h1]
    split
    · rename_i msg heq
      injection heq with h
      injection h with hs hb
      exact absurd hs h2
    · rename_i e hx hne
      injection hne with h
      rw [← h]
    · rename_i r heq
      simp at heq
  · intro msg
    rfl

/-- C8 witness: a 500 response propagates as a typed `Api` failure. -/
theorem get_progress_absence_policy_witness :
    ¬(200 ≤ 500 ∧ 500 < 300) ∧ (500 : Nat) ≠ 404
    ∧ Client.get_progress (fun _ => none) (Except.ok ⟨500, "oops"⟩) =
        Except.error (AppError.api 500 "oops") :=
  ⟨by decide, by decide,
    (get_progress_absence_policy (fun _ => none)).2.2.1 ⟨500, "oops"⟩ (by decide) (by decide)⟩

/-- C4 counterexample: with 23 of 40 main episodes watched, the double
`23.0 / 40.0 * 100.0` is `57.499999999999996` — strictly below the
exact rational tie 57.5 — so the program prints `"57%"` while the
claimed `round(w / M * 100)` is `round(57.5) = 58`. -/
theorem completeness_pct_round_cex :
    (build_detail_record sampleCol sampleDetail fortyMainEpisodes
        watched23).completeness_pct = "57%"
    ∧ spec_round_pct 23 40 = "58%"
    ∧ (build_detail_record sampleCol sampleDetail fortyMainEpisodes
        watched23).completeness_pct ≠ spec_round_pct 23 40 := by
  refine ⟨by decide, by decide, by decide⟩

/-- C4 (amended): the completeness percentage string is the `{:.0}`
rendering of the IEEE binary64 computation `w as f64 / M as f64 * 100.0`
when there are main episodes, else of
`ep_status as f64 / declared-total as f64 * 100.0` when the declared
total (max of the subject's two declared counts) is positive, else the
literal `"N/A"`; this agrees with rounding the exact rational
`w / M * 100` except when the double arithmetic lands on the other side
of a half-integer tie.  The claim's three concrete examples hold. -/
theorem completeness_pct_amended :
    (∀ (col : Collection) (detail : SubjectDetail) (eps : List Episode)
        (prog : Option UserProgress),
      (build_detail_record col detail eps prog).completeness_pct =
        (let main_eps := eps.filter (fun e => e.episode_type == 0)
         let M := main_eps.length
         let watched_ep_ids : List Nat :=
           (prog.map (fun p =>
             (p.eps.filter (fun ep => ep.status.id == 2)).map (fun ep => ep.id))).getD []
         let w := (main_eps.filter (fun e => watched_ep_ids.contains e.id)).length
         let total := max detail.total_episodes detail.eps
         if M > 0 then format_pct w M
         else if total > 0 then format_pct col.ep_status total
         else "N/A"))
    ∧ (build_detail_record sampleCol sampleDetail [] none).completeness_pct = "N/A"
    ∧ (build_detail_record sampleCol sampleDetail tenMainEpisodes threeWatched).completeness_pct
        = "30%"
    ∧ (build_detail_record sampleColEp2 ⟨10, "Name", "", 2, 0, 4⟩ [] none).completeness_pct
        = "50%" := by
  refine ⟨?_, by decide, by decide, by decide⟩
  intro col detail eps prog
  simp only [build_detail_record, List.length_map]

/-- C5 counterexample: with two watched main episodes sharing the sort
value 5, the code's fraction is `"2/2"` (the watched sort values are
not deduplicated) while the claim's deduplicated watched set yields
`"1/2"`. -/
theorem watched_fraction_dedup_cex :
    (build_detail_record sampleCol sampleDetail
        [⟨1, 0, 5, none⟩, ⟨2, 0, 5, none⟩]
        (some ⟨10, [⟨1, ⟨2⟩⟩, ⟨2, ⟨2⟩⟩]⟩)).completeness = "2/2"
    ∧ spec_watched_fraction [⟨1, 0, 5, none⟩, ⟨2, 0, 5, none⟩]
        (some ⟨10, [⟨1, ⟨2⟩⟩, ⟨2, ⟨2⟩⟩]⟩) = "1/2"
    ∧ (build_detail_record sampleCol sampleDetail
        [⟨1, 0, 5, none⟩, ⟨2, 0, 5, none⟩]
        (some ⟨10, [⟨1, ⟨2⟩⟩, ⟨2, ⟨2⟩⟩]⟩)).completeness
        ≠ spec_watched_fraction [⟨1, 0, 5, none⟩, ⟨2, 0, 5, none⟩]
            (some ⟨10, [⟨1, ⟨2⟩⟩, ⟨2, ⟨2⟩⟩]⟩) := by
  refine ⟨by decide, by decide, by decide⟩

/-- C5 (amended): the fraction numerator is the number of watched main
episodes, i.e. the length of the list of their sort values without
deduplication (equal sort values are counted once per episode); a
missing progress record gives numerator 0. -/
theorem watched_fraction_amended :
    (∀ (col : Collection) (detail : SubjectDetail) (eps : List Episode)
        (prog : Option UserProgress),
      (build_detail_record col detail eps prog).completeness =
        (let main_eps := eps.filter (fun e => e.episode_type == 0)
         let watched_ep_ids : List Nat :=
           (prog.map (fun p =>
             (p.eps.filter (fun ep => ep.status.id == 2)).map (fun ep => ep.id))).getD []
         let w := (main_eps.filter (fun e => watched_ep_ids.contains e.id)).length
         s!"{w}/{main_eps.length}"))
    ∧ (∀ (col : Collection) (detail : SubjectDetail) (eps : List Episode),
      (build_detail_record col detail eps none).completeness =
        (let M := (eps.filter (fun e => e.episode_type == 0)).length
         s!"0/{M}")) := by
  constructor
  · intro col detail eps prog
    simp only [build_detail_record, List.length_map]
  · intro col detail eps
    simp [build_detail_record]
    rfl

set_option maxRecDepth 4000 in
lemma toString_nat_ne_empty : ∀ n : Nat, n < 256 → toString n ≠ "" := by decide

/-- C9: in both record builders the rating field is the empty string
exactly when the numeric rating is 0 and the decimal rendering
otherwise (a `u8` rating is below 256), and no other field depends on
the rating value. -/
theorem rating_field_rule (col : Collection) (h : col.rate < 256) :
    ((build_simple_record col).rating = "" ↔ col.rate = 0)
    ∧ (∀ detail eps prog,
        (build_detail_record col detail eps prog).rating = "" ↔ col.rate = 0)
    ∧ (col.rate ≠ 0 → (build_simple_record col).rating = toString col.rate)
    ∧ (col.rate ≠ 0 → ∀ detail eps prog,
        (build_detail_record col detail eps prog).rating = toString col.rate)
    ∧ (∀ r : Nat, simple_sans_rating (build_simple_record { col with rate := r }) =
        simple_sans_rating (build_simple_record col))
    ∧ (∀ (r : Nat) detail eps prog,
        export_sans_rating (build_detail_record { col with rate := r } detail eps prog) =
        export_sans_rating (build_detail_record col detail eps prog)) := by
  have hrate : (if col.rate = 0 then "" else toString col.rate) = "" ↔ col.rate = 0 := by
    by_cases h0 : col.rate = 0
    · simp [h0]
    · simp [h0, toString_nat_ne_empty col.rate h]
  refine ⟨?_, ?_, ?_, ?_, ?_, ?_⟩
  · exact hrate
  · intro detail eps prog
    exact hrate
  · intro h0
    simp [build_simple_record, h0]
  · intro h0 detail eps prog
    simp [build_detail_record, h0]
  · intro r
    rfl
  · intro r detail eps prog
    rfl

/-- C9 witness: the rule applied at a concrete unrated collection item. -/
theorem rating_field_rule_witness :
    sampleCol.rate < 256
    ∧ ((build_simple_record sampleCol).rating = "" ↔ sampleCol.rate = 0) :=
  ⟨by decide, (rating_field_rule sampleCol (by decide)).1⟩

/-! ## Helper lemmas: episode pagination trace -/

lemma episodes_loop_trace_ext (remote : Remote) (sid : Nat) :
    ∀ (fuel offset : Nat) (acc : List Episode) (trace : List Nat),
      ∃ t, (episodes_loop remote sid fuel offset acc trace).2 = trace ++ t := by
  intro fuel
  induction fuel with
  | zero =>
    intro offset acc trace
    exact ⟨[], by simp [episodes_loop]⟩
  | succ n ih =>
    intro offset acc trace
    simp only [episodes_loop]
    split
    · exact ⟨[offset], rfl⟩
    · obtain ⟨t, ht⟩ := ih (offset + 100)
        (acc ++ (remote.get_episodes sid 100 offset).data) (trace ++ [offset])
      exact ⟨[offset] ++ t, by rw [ht, List.append_assoc]⟩

/-! ## Helper lemmas: the resumable aggregation loop -/

lemma detail_loop_no_skip (remote : Remote) (fuel uid : Nat) :
    ∀ (cols : List Collection) (cache : Cache) (records : List ExportRecord)
      (i start : Nat), start ≤ i →
      detail_loop remote fuel uid cache records i start cols =
        run_items remote fuel uid cache records cols := by
  intro cols
  induction cols with
  | nil =>
    intro cache records i start h
    rfl
  | cons col rest ih =>
    intro cache records i start h
    simp only [detail_loop, run_items]
    rw [if_neg (by omega)]
    exact ih _ _ (i + 1) start (by omega)

lemma detail_loop_skip (remote : Remote) (fuel uid : Nat) :
    ∀ (d : Nat) (cols : List Collection) (cache : Cache)
      (records : List ExportRecord) (i : Nat),
      detail_loop remote fuel uid cache records i (i + d) cols =
        run_items remote fuel uid cache records (cols.drop d) := by
  intro d
  induction d with
  | zero =>
    intro cols cache records i
    rw [Nat.add_zero, List.drop_zero]
    exact detail_loop_no_skip remote fuel uid cols cache records i i (le_refl i)
  | succ n ih =>
    intro cols cache records i
    cases cols with
    | nil => rfl
    | cons col rest =>
      simp only [detail_loop]
      rw [if_pos (by omega), List.drop_succ_cons]
      have h := ih rest cache records (i + 1)
      rw [show i + 1 + n = i + (n + 1) by omega] at h
      exact h

lemma run_items_append (remote : Remote) (fuel uid : Nat) :
    ∀ (l1 l2 : List Collection) (cache : Cache) (records : List ExportRecord),
      run_items remote fuel uid cache records (l1 ++ l2) =
        run_items remote fuel uid (run_items remote fuel uid cache records l1).1
          (run_items remote fuel uid cache records l1).2 l2 := by
  intro l1
  induction l1 with
  | nil =>
    intro l2 cache records
    rfl
  | cons col rest ih =>
    intro l2 cache records
    simp only [List.cons_append, run_items]
    exact ih l2 _ _

lemma run_items_done_key (remote : Remote) (fuel uid : Nat) :
    ∀ (cols : List Collection) (cache : Cache) (records : List ExportRecord),
      cols ≠ [] →
      Cache.get (run_items remote fuel uid cache records cols).1
          (Key.done_records uid) decRecords
        = some (run_items remote fuel uid cache records cols).2 := by
  intro cols
  induction cols with
  | nil =>
    intro cache records h
    exact absurd rfl h
  | cons col rest ih =>
    intro cache records _
    by_cases hr : rest = []
    · subst hr
      simp [run_items, Cache.get, Cache.set, Cache.lookup, decRecords]
    · simp only [run_items]
      exact ih _ _ hr

lemma run_items_length (remote : Remote) (fuel uid : Nat) :
    ∀ (cols : List Collection) (cache : Cache) (records : List ExportRecord),
      (run_items remote fuel uid cache records cols).2.length
        = records.length + cols.length := by
  intro cols
  induction cols with
  | nil =>
    intro cache records
    simp [run_items]
  | cons col rest ih =>
    intro cache records
    simp only [run_items]
    rw [ih]
    simp
    omega

/-- C10: whenever the episodes cache key exists — a full list, the
zero-byte empty marker, or an undeserializable payload —
`fetch_all_episodes` returns the cached list (`[]` for the marker and
the undeserializable case), leaves the cache unchanged and makes no
remote call; an absent key triggers remote pagination starting from
offset 0. -/
theorem fetch_all_episodes_cache_granularity (remote : Remote) (fuel : Nat)
    (cache : Cache) (uid sid : Nat) :
    (∀ es, cache.lookup (Key.episodes uid sid) = some (CVal.episodes es) →
      fetch_all_episodes remote fuel cache uid sid = (cache, es, []))
    ∧ (cache.lookup (Key.episodes uid sid) = some CVal.empty →
      fetch_all_episodes remote fuel cache uid sid = (cache, [], []))
    ∧ (cache.lookup (Key.episodes uid sid) = some CVal.corrupt →
      fetch_all_episodes remote fuel cache uid sid = (cache, [], []))
    ∧ (cache.lookup (Key.episodes uid sid) = none → 0 < fuel →
      (fetch_all_episodes remote fuel cache uid sid).2.2.head? = some 0) := by
  refine ⟨?_, ?_, ?_, ?_⟩
  · intro es h
    simp [fetch_all_episodes, Cache.has, Cache.get, h, decEpisodes]
  · intro h
    simp [fetch_all_episodes, Cache.has, Cache.get, h]
  · intro h
    simp [fetch_all_episodes, Cache.has, Cache.get, h, decEpisodes]
  · intro h hfuel
    have hhas : cache.has (Key.episodes uid sid) = false := by
      simp [Cache.has, h]
    obtain ⟨f, rfl⟩ : ∃ f, fuel = f + 1 := ⟨fuel - 1, by omega⟩
    simp only [fetch_all_episodes, hhas, Bool.false_eq_true, if_false]
    have hhead : ∀ r : List Episode × List Nat,
        r = episodes_loop remote sid (f + 1) 0 [] [] → r.2.head? = some 0 := by
      intro r hr
      rw [hr]
      simp only [episodes_loop]
      split
      · rfl
      · obtain ⟨t, ht⟩ := episodes_loop_trace_ext remote sid f (0 + 100)
          ([] ++ (remote.get_episodes sid 100 0).data) ([] ++ [0])
        rw [ht]
        rfl
    split
    · exact hhead _ rfl
    · exact hhead _ rfl

/-- C10 witness: an existing full-list entry is returned as-is with no
remote call and no cache write. -/
theorem fetch_all_episodes_cache_granularity_witness :
    ([(Key.episodes 1 7, CVal.episodes [⟨1, 0, 1, none⟩])] : Cache).lookup
        (Key.episodes 1 7) = some (CVal.episodes [⟨1, 0, 1, none⟩])
    ∧ fetch_all_episodes trivialRemote 1
        [(Key.episodes 1 7, CVal.episodes [⟨1, 0, 1, none⟩])] 1 7 =
        ([(Key.episodes 1 7, CVal.episodes [⟨1, 0, 1, none⟩])], [⟨1, 0, 1, none⟩], []) :=
  ⟨by decide,
    (fetch_all_episodes_cache_granularity trivialRemote 1
      [(Key.episodes 1 7, CVal.episodes [⟨1, 0, 1, none⟩])] 1 7).1
      [⟨1, 0, 1, none⟩] (by decide)⟩

/-- C2 counterexample: with an existing-but-undeserializable entry,
`fetch_all_episodes` returns `[]` with no remote call and no cache
write — unlike the true cache-miss behaviour, which re-fetches the
(nonempty) remote list and overwrites — and `fetch_progress` likewise
returns `none` without re-fetching; so these callers do not behave as
on a cache miss. -/
theorem decode_miss_refetch_cex :
    fetch_all_episodes c2Remote 1 c2Cache 1 7 = (c2Cache, [], [])
    ∧ fetch_all_episodes c2Remote 1 [] 1 7 =
        ([(Key.episodes 1 7, CVal.episodes [⟨1, 0, 1, none⟩])], [⟨1, 0, 1, none⟩], [0])
    ∧ fetch_progress c2Remote c2Cache 1 7 = (c2Cache, none, [])
    ∧ fetch_progress c2Remote [] 1 7 =
        ([(Key.progress 1 7, CVal.progress ⟨7, []⟩)], some ⟨7, []⟩, [7]) := by
  refine ⟨by decide, by decide, by decide, by decide⟩

/-- C2 (amended): `Cache::get` itself treats an undeserializable file
as a miss (returns `None`), and the callers that use `get` without an
existence check therefore treat it as absent: `fetch_subject` and the
collection page fetch re-fetch and overwrite, and the `done_records`
read makes the run restart from index 0 — recomputing every record and,
for a nonempty collection list, overwriting the checkpoint entry; but
`fetch_all_episodes` and `fetch_progress` check `has` first and, for an
existing-but-undeserializable entry, return the empty list resp.
no-progress with no remote call and no cache write. -/
theorem decode_miss_policy_amended (remote : Remote) (fuel : Nat) (cache : Cache)
    (uid sid : Nat) :
    (∀ (α : Type) (dec : CVal → Option α) (k : Key),
      cache.lookup k = some CVal.corrupt → dec CVal.corrupt = none →
      cache.get k dec = none)
    ∧ (cache.lookup (Key.subject uid sid) = some CVal.corrupt →
      fetch_subject remote cache uid sid =
        (cache.set (Key.subject uid sid) (CVal.subject (remote.get_subject sid)),
          remote.get_subject sid))
    ∧ (∀ offset, cache.lookup (Key.collections uid offset) = some CVal.corrupt →
      collections_page remote cache uid offset =
        (cache.set (Key.collections uid offset)
          (CVal.page (remote.get_collections 30 offset)),
          remote.get_collections 30 offset, 1))
    ∧ (cache.lookup (Key.episodes uid sid) = some CVal.corrupt →
      fetch_all_episodes remote fuel cache uid sid = (cache, [], []))
    ∧ (cache.lookup (Key.progress uid sid) = some CVal.corrupt →
      fetch_progress remote cache uid sid = (cache, none, []))
    ∧ (cache.lookup (Key.done_records uid) = some CVal.corrupt →
      ∀ cols, fetch_detail_records remote fuel cache uid cols =
        run_items remote fuel uid cache [] cols)
    ∧ (cache.lookup (Key.done_records uid) = some CVal.corrupt →
      ∀ cols, cols ≠ [] →
        Cache.get (fetch_detail_records remote fuel cache uid cols).1
            (Key.done_records uid) decRecords
          = some (fetch_detail_records remote fuel cache uid cols).2) := by
  have hdone : cache.lookup (Key.done_records uid) = some CVal.corrupt →
      ∀ cols, fetch_detail_records remote fuel cache uid cols =
        run_items remote fuel uid cache [] cols := by
    intro h cols
    have hrec : (Cache.get cache (Key.done_records uid) decRecords).getD
        ([] : List ExportRecord) = [] := by
      simp [Cache.get, h, decRecords]
    simp only [fetch_detail_records]
    rw [hrec]
    exact detail_loop_no_skip remote fuel uid cols cache [] 0 _ (by simp)
  refine ⟨?_, ?_, ?_, ?_, ?_, hdone, ?_⟩
  · intro α dec k h hdec
    simp [Cache.get, h, hdec]
  · intro h
    simp [fetch_subject, Cache.get, h, decSubject]
  · intro offset h
    simp [collections_page, Cache.get, h, decPage]
  · intro h
    simp [fetch_all_episodes, Cache.has, Cache.get, h, decEpisodes]
  · intro h
    simp [fetch_progress, Cache.has, Cache.get, h, decProgress]
  · intro h cols hne
    rw [hdone h cols]
    exact run_items_done_key remote fuel uid cols cache [] hne

/-- C2 amended-claim witness: the episodes clause applied at the
concrete corrupt cache. -/
theorem decode_miss_policy_amended_witness :
    c2Cache.lookup (Key.episodes 1 7) = some CVal.corrupt
    ∧ fetch_all_episodes c2Remote 1 c2Cache 1 7 = (c2Cache, [], []) :=
  ⟨by decide,
    (decode_miss_policy_amended c2Remote 1 c2Cache 1 7).2.2.2.1 (by decide)⟩

/-! ## Helper lemmas: collection pagination -/

lemma collections_loop_spec (remote : Remote) (uid total : Nat)
    (hpages : ∀ o, (remote.get_collections 30 o).total = total ∧
      (remote.get_collections 30 o).data.length = min 30 (total - o)) :
    ∀ (fuel offset : Nat) (cache : Cache) (acc : List Collection) (reqs : Nat),
      total - offset ≤ 30 * fuel →
      (∀ o, offset ≤ o → cache.lookup (Key.collections uid o) = none) →
      (collections_loop remote uid total fuel cache offset acc reqs).2.1.length
          = acc.length + (total - offset)
      ∧ (collections_loop remote uid total fuel cache offset acc reqs).2.2
          = reqs + (total - offset + 29) / 30 := by
  intro fuel
  induction fuel with
  | zero =>
    intro offset cache acc reqs hfuel hinv
    simp only [collections_loop]
    constructor <;> omega
  | succ n ih =>
    intro offset cache acc reqs hfuel hinv
    by_cases hlt : offset < total
    · have hmiss : cache.get (Key.collections uid offset) decPage = none := by
        simp [Cache.get, hinv offset (le_refl offset)]
      simp only [collections_loop, if_pos hlt, collections_page, hmiss]
      have hinv' : ∀ o, offset + 30 ≤ o →
          (cache.set (Key.collections uid offset)
            (CVal.page (remote.get_collections 30 offset))).lookup
              (Key.collections uid o) = none := by
        intro o ho
        simp only [Cache.set, Cache.lookup]
        rw [if_neg (by intro hk; injection hk with h1 h2; omega)]
        exact hinv o (by omega)
      obtain ⟨h1, h2⟩ := ih (offset + 30) _ _ _ (by omega) hinv'
      rw [h1, h2]
      obtain ⟨ht, hl⟩ := hpages offset
      constructor
      · rw [List.length_append, hl]
        omega
      · omega
    · simp only [collections_loop, if_neg hlt]
      constructor <;> omega

/-- C6 counterexample: when the remote total is 0, the collector still
issues exactly one first-page request, while the claimed count
`ceil(total / 30)` is 0. -/
theorem pagination_request_count_cex :
    (fetch_collections trivialRemote [] 1).2.2 = 1
    ∧ (0 + 29) / 30 = 0
    ∧ (1 : Nat) ≠ (0 + 29) / 30 := by
  refine ⟨by decide, by decide, by decide⟩

/-- C6 (amended): with an empty cache, and every page reporting the
same total and carrying `min 30 (total - offset)` items (full pages
before the last), the collector issues exactly `max 1 (ceil(total/30))`
remote page requests — the unconditional first-page fetch makes it one,
not zero, when `total = 0` — and the concatenated result has exactly
`total` items. -/
theorem pagination_request_count_amended (remote : Remote) (uid total : Nat)
    (hpages : ∀ o, (remote.get_collections 30 o).total = total ∧
      (remote.get_collections 30 o).data.length = min 30 (total - o)) :
    (fetch_collections remote [] uid).2.1.length = total
    ∧ (fetch_collections remote [] uid).2.2 = max 1 ((total + 29) / 30) := by
  have hmiss : Cache.get ([] : Cache) (Key.collections uid 0) decPage = none := by
    simp [Cache.get, Cache.lookup]
  have h0 := hpages 0
  simp only [fetch_collections, collections_page, hmiss]
  rw [h0.1]
  have hinv : ∀ o, 30 ≤ o →
      Cache.lookup
        (Cache.set ([] : Cache) (Key.collections uid 0)
          (CVal.page (remote.get_collections 30 0)))
        (Key.collections uid o) = none := by
    intro o ho
    simp only [Cache.set, Cache.lookup]
    rw [if_neg (by intro hk; injection hk with h1 h2; omega)]
  obtain ⟨h1, h2⟩ := collections_loop_spec remote uid total hpages total 30
    (Cache.set ([] : Cache) (Key.collections uid 0)
      (CVal.page (remote.get_collections 30 0)))
    (remote.get_collections 30 0).data 1 (by omega) hinv
  rw [h1, h2, h0.2]
  constructor <;> omega

/-- C6 amended-claim witness: the amended count applied at the
all-empty remote (`total = 0`): one request, zero items. -/
theorem pagination_request_count_amended_witness :
    (∀ o, (trivialRemote.get_collections 30 o).total = 0 ∧
      (trivialRemote.get_collections 30 o).data.length = min 30 (0 - o))
    ∧ ((fetch_collections trivialRemote [] 1).2.1.length = 0
      ∧ (fetch_collections trivialRemote [] 1).2.2 = max 1 ((0 + 29) / 30)) :=
  ⟨fun o => ⟨rfl, by simp [trivialRemote]⟩,
    pagination_request_count_amended trivialRemote 1 0
      (fun o => ⟨rfl, by simp [trivialRemote]⟩)⟩

/-- C1: resume correctness of the detail-record aggregation: for every
collection list and every `k ≤ N`, running `fetch_detail_records` on
the cache state left by a crash right after checkpointing item `k` of a
run that started from an empty cache yields exactly the record list of
the uninterrupted empty-cache run, and that list has length `N`. -/
theorem fetch_detail_records_resume_correct (remote : Remote) (fuel uid : Nat)
    (cols : List Collection) (k : Nat) (hk : k ≤ cols.length) :
    (fetch_detail_records remote fuel (crash_state remote fuel uid cols k) uid cols).2
      = (fetch_detail_records remote fuel [] uid cols).2
    ∧ (fetch_detail_records remote fuel [] uid cols).2.length = cols.length := by
  have hfull : fetch_detail_records remote fuel [] uid cols
      = run_items remote fuel uid [] [] cols :=
    detail_loop_no_skip remote fuel uid cols [] [] 0 0 (le_refl 0)
  have hrecords :
      (Cache.get (crash_state remote fuel uid cols k) (Key.done_records uid)
          decRecords).getD []
        = (run_items remote fuel uid [] [] (cols.take k)).2 := by
    by_cases hk0 : k = 0
    · subst hk0
      rfl
    · have hne : cols.take k ≠ [] := by
        cases cols with
        | nil => simp at hk; omega
        | cons a t =>
          cases k with
          | zero => exact absurd rfl hk0
          | succ m => simp [List.take]
      simp only [crash_state]
      rw [run_items_done_key remote fuel uid (cols.take k) [] [] hne]
      rfl
  have hlen : (run_items remote fuel uid [] [] (cols.take k)).2.length = k := by
    rw [run_items_length]
    simp [List.length_take]
    omega
  have hresumed :
      fetch_detail_records remote fuel (crash_state remote fuel uid cols k) uid cols
        = run_items remote fuel uid (crash_state remote fuel uid cols k)
            (run_items remote fuel uid [] [] (cols.take k)).2 (cols.drop k) := by
    simp only [fetch_detail_records]
    rw [hrecords, hlen]
    have h := detail_loop_skip remote fuel uid k cols
      (crash_state remote fuel uid cols k)
      (run_items remote fuel uid [] [] (cols.take k)).2 0
    rw [Nat.zero_add] at h
    exact h
  constructor
  · rw [hresumed, hfull]
    conv_rhs => rw [show cols = cols.take k ++ cols.drop k from (List.take_append_drop k cols).symm]
    rw [run_items_append]
    rfl
  · rw [hfull, run_items_length]
    simp

/-- C1 witness: resume after 1 of 2 items reproduces the uncached run. -/
theorem fetch_detail_records_resume_correct_witness :
    1 ≤ ([sampleCol, sampleColEp2] : List Collection).length
    ∧ ((fetch_detail_records trivialRemote 1
          (crash_state trivialRemote 1 1 [sampleCol, sampleColEp2] 1) 1
          [sampleCol, sampleColEp2]).2
        = (fetch_detail_records trivialRemote 1 [] 1 [sampleCol, sampleColEp2]).2
      ∧ (fetch_detail_records trivialRemote 1 [] 1 [sampleCol, sampleColEp2]).2.length
        = ([sampleCol, sampleColEp2] : List Collection).length) :=
  ⟨by decide,
    fetch_detail_records_resume_correct trivialRemote 1 1 [sampleCol, sampleColEp2] 1
      (by decide)⟩

end Bgm
